import Mathlib

/-!
Verification of the core model of a small pygame 2D action game
(files model.py, settings.py, controller.py).

Modelling conventions: Python floats are embedded as rationals with exact
arithmetic (decimal literals read as the rationals they denote), Python ints
as integers.  pygame.Rect is an integer rectangle; its colliderect is the
pygame overlap test with strict inequalities on all four sides.  Strings are
embedded as lists of Unicode code points.
-/

/-- pygame.Rect: integer origin x, y and size w, h. -/
structure Rect where
  x : ℤ
  y : ℤ
  w : ℤ
  h : ℤ
  deriving DecidableEq, Repr

/-- pygame Rect.colliderect: the rectangles overlap; edges merely touching do
not collide (pygame tests all four sides strictly). -/
def Rect.colliderect (a b : Rect) : Bool :=
  decide (a.x < b.x + b.w) && decide (a.y < b.y + b.h) &&
  decide (b.x < a.x + a.w) && decide (b.y < a.y + a.h)

/-- pygame Rect.centerx: x + w / 2 (integer division). -/
def Rect.centerx (r : Rect) : ℤ := r.x + r.w / 2

/-- pygame Rect.centery: y + h / 2 (integer division). -/
def Rect.centery (r : Rect) : ℤ := r.y + r.h / 2

/-- Assigning to a pygame Rect center: the origin is re-derived from the
requested center point. -/
def Rect.setCenter (r : Rect) (cx cy : ℤ) : Rect :=
  { r with x := cx - r.w / 2, y := cy - r.h / 2 }

/-- Python int(q) applied to a float: truncation toward zero.  On a rational
in lowest terms this is the numerator t-divided by the denominator. -/
def pyInt (q : ℚ) : ℤ :=
  Int.tdiv q.num q.den

/-- model.Item, reduced to what the verified operations inspect: its world
coordinates and an identity tag standing for the remaining payload
(name, texture, damage and so on, which the verified code never reads). -/
structure Item where
  coordinate_x : ℤ
  coordinate_y : ℤ
  item_id : ℕ
  deriving DecidableEq, Repr

/-- model.Inventory: a fixed-capacity slot list and a selection cursor. -/
structure Inventory where
  capacity : ℕ
  slots : List (Option Item)
  selected_index : ℤ
  deriving DecidableEq, Repr

/-- Inventory() with the default capacity 9: all slots empty, cursor at 0. -/
def Inventory.init : Inventory :=
  { capacity := 9, slots := List.replicate 9 none, selected_index := 0 }

/-- The slot under the cursor, slots[selected_index] (faithful for the
reachable states, where 0 ≤ selected_index < len(slots)). -/
def Inventory.selectedSlot (inv : Inventory) : Option Item :=
  inv.slots.getD inv.selected_index.toNat none

/-- Inventory.add_items: prefer the currently selected slot when empty,
otherwise the first empty slot; return False when every slot is taken. -/
def Inventory.add_items (inv : Inventory) (item : Item) : Inventory × Bool :=
  if inv.selectedSlot.isNone then
    ({ inv with slots := inv.slots.set inv.selected_index.toNat (some item) }, true)
  else
    match inv.slots.findIdx? Option.isNone with
    | some i => ({ inv with slots := inv.slots.set i (some item) }, true)
    | none => (inv, false)

/-- Inventory.select_slot: only an index inside [0, capacity) moves the
cursor; any other index leaves the inventory unchanged. -/
def Inventory.select_slot (inv : Inventory) (index : ℤ) : Inventory :=
  if 0 ≤ index ∧ index < (inv.capacity : ℤ) then
    { inv with selected_index := index }
  else inv

/-- Inventory.scroll: add the signed delta, then reduce modulo capacity
(Python % with a positive modulus, i.e. euclidean remainder). -/
def Inventory.scroll (inv : Inventory) (direction : ℤ) : Inventory :=
  { inv with selected_index := (inv.selected_index + direction) % (inv.capacity : ℤ) }

/-- One call of the public Inventory interface. -/
inductive InvOp where
  | add (item : Item)
  | select (index : ℤ)
  | scrollBy (direction : ℤ)
  deriving DecidableEq

/-- Apply one Inventory call. -/
def Inventory.applyOp (inv : Inventory) : InvOp → Inventory
  | .add item => (inv.add_items item).1
  | .select index => inv.select_slot index
  | .scrollBy direction => inv.scroll direction

/-- Apply a sequence of Inventory calls in order. -/
def Inventory.applyOps (inv : Inventory) (ops : List InvOp) : Inventory :=
  ops.foldl Inventory.applyOp inv

/-- model.Player: float position, derived integer box, health, movement
parameters, inventory, vehicle possession and visibility.  The field x
models the attribute that Controller.vehicle_handler creates dynamically on
vehicle exit (none while the attribute does not exist). -/
structure Player where
  rect : Rect
  position_x : ℚ
  position_y : ℚ
  hp : ℤ
  speed : ℚ
  sprint_bonus : ℚ
  inventory : Inventory
  current_vehicle : Option ℕ
  visible : Bool
  x : Option ℤ
  deriving DecidableEq

/-- The boundary-clamp tail of Player.move: clamp the box to the map on all
four sides independently and re-sync the float position from the box
whenever a clamp fires. -/
def Player.clampBounds (mapW mapH : ℤ) (p : Player) : Player :=
  let p :=
    if p.rect.x < 0 then
      { p with rect := { p.rect with x := 0 }, position_x := ((0 : ℤ) : ℚ) }
    else if mapW < p.rect.x + p.rect.w then
      { p with rect := { p.rect with x := mapW - p.rect.w },
               position_x := ((mapW - p.rect.w : ℤ) : ℚ) }
    else p
  if p.rect.y < 0 then
    { p with rect := { p.rect with y := 0 }, position_y := ((0 : ℤ) : ℚ) }
  else if mapH < p.rect.y + p.rect.h then
    { p with rect := { p.rect with y := mapH - p.rect.h },
             position_y := ((mapH - p.rect.h : ℤ) : ℚ) }
  else p

/-- Player.move: sprint bonus, diagonal factor 0.7071, float integration,
box re-sync, then the boundary clamp.  The map size comes from the config. -/
def Player.move (mapW mapH : ℤ) (p : Player) (direction_x direction_y : ℚ)
    (sprint : Bool) (dt : ℚ) : Player :=
  let current_speed := p.speed + (if sprint then p.sprint_bonus else 0)
  let current_speed :=
    if direction_x ≠ 0 ∧ direction_y ≠ 0 then current_speed * (7071 / 10000)
    else current_speed
  let px := p.position_x + direction_x * current_speed * dt
  let py := p.position_y + direction_y * current_speed * dt
  Player.clampBounds mapW mapH
    { p with position_x := px, position_y := py,
             rect := { p.rect with x := pyInt px, y := pyInt py } }

/-- The scan loop of Player.item_picker: walk the spawned items in order;
on a box overlap try add_items, and stop at the first item whose insertion
succeeds (an overlap whose insertion fails only moves the scan on). -/
def Player.item_picker_loop (item_size : ℤ) (prect : Rect) (inv : Inventory) :
    List Item → Inventory × Option Item
  | [] => (inv, none)
  | item :: rest =>
    let item_hitbox : Rect :=
      { x := item.coordinate_x, y := item.coordinate_y, w := item_size, h := item_size }
    if prect.colliderect item_hitbox then
      match inv.add_items item with
      | (inv2, true) => (inv2, some item)
      | (inv2, false) => Player.item_picker_loop item_size prect inv2 rest
    else
      Player.item_picker_loop item_size prect inv rest

/-- Player.item_picker: run the scan loop; when an item was picked up it is
removed (first occurrence) from the ground list. -/
def Player.item_picker (item_size : ℤ) (p : Player) (items_spawned : List Item) :
    Player × List Item :=
  match Player.item_picker_loop item_size p.rect p.inventory items_spawned with
  | (inv2, some item) => ({ p with inventory := inv2 }, items_spawned.erase item)
  | (inv2, none) => ({ p with inventory := inv2 }, items_spawned)

/-- model.Cars: a vehicle with float position, derived integer box, polar
kinematic state (signed scalar speed, heading angle in degrees) and the
static movement parameters from its config entry. -/
structure Cars where
  rect : Rect
  position_x : ℚ
  position_y : ℚ
  max_speed : ℚ
  acceleration : ℚ
  rotation_speed : ℚ
  health : ℤ
  hiding' : Bool
  current_speed : ℚ
  angle : ℚ
  deriving DecidableEq

/-- Cars._acceleration: with throttle input, push the signed speed by
acceleration*dt while it is strictly inside the per-sign cap; without input,
decay it toward zero by friction*dt, clamping at the zero crossing. -/
def Cars._acceleration (friction : ℚ) (c : Cars) (direction_y dt : ℚ) : Cars :=
  if direction_y ≠ 0 then
    let push_direction := -direction_y
    if 0 < push_direction ∧ c.current_speed < c.max_speed then
      { c with current_speed := c.current_speed + c.acceleration * dt }
    else if push_direction < 0 ∧ -c.max_speed < c.current_speed then
      { c with current_speed := c.current_speed - c.acceleration * dt }
    else c
  else
    if 0 < c.current_speed then
      let s := c.current_speed - friction * dt
      { c with current_speed := if s < 0 then 0 else s }
    else if c.current_speed < 0 then
      let s := c.current_speed + friction * dt
      { c with current_speed := if 0 < s then 0 else s }
    else c

/-- Cars._physics: polar displacement current_speed*(cos angle, sin angle)*dt
added to the float position, box re-synced, then the heading rotates by
direction_x*rotation_speed*dt only while the speed magnitude exceeds 1.
The composites cos(radians(a)) and sin(radians(a)) of the source are
abstracted as the function parameters cosDeg and sinDeg. -/
def Cars._physics (cosDeg sinDeg : ℚ → ℚ) (c : Cars) (direction_x dt : ℚ) : Cars :=
  let change_x := c.current_speed * cosDeg c.angle * dt
  let change_y := c.current_speed * sinDeg c.angle * dt
  let px := c.position_x + change_x
  let py := c.position_y + change_y
  let c := { c with position_x := px, position_y := py,
                    rect := { c.rect with x := pyInt px, y := pyInt py } }
  if 1 < |c.current_speed| then
    { c with angle := c.angle + direction_x * c.rotation_speed * dt }
  else c

/-- Cars._boundaries: the Player box clamp, and additionally any firing clamp
zeroes the current speed. -/
def Cars._boundaries (mapW mapH : ℤ) (c : Cars) : Cars :=
  let c :=
    if c.rect.x < 0 then
      { c with rect := { c.rect with x := 0 }, position_x := ((0 : ℤ) : ℚ),
               current_speed := 0 }
    else if mapW < c.rect.x + c.rect.w then
      { c with rect := { c.rect with x := mapW - c.rect.w },
               position_x := ((mapW - c.rect.w : ℤ) : ℚ), current_speed := 0 }
    else c
  if c.rect.y < 0 then
    { c with rect := { c.rect with y := 0 }, position_y := ((0 : ℤ) : ℚ),
             current_speed := 0 }
  else if mapH < c.rect.y + c.rect.h then
    { c with rect := { c.rect with y := mapH - c.rect.h },
             position_y := ((mapH - c.rect.h : ℤ) : ℚ), current_speed := 0 }
  else c

/-- Cars.drive, exactly as the source sequences it: self._physics(dx, dt),
then self._acceleration(dy, dt), then self._boundaries(). -/
def Cars.drive (cosDeg sinDeg : ℚ → ℚ) (friction : ℚ) (mapW mapH : ℤ) (c : Cars)
    (direction_x direction_y dt : ℚ) : Cars :=
  Cars._boundaries mapW mapH
    (Cars._acceleration friction (Cars._physics cosDeg sinDeg c direction_x dt)
      direction_y dt)

/-- Modelled from the spec words, for comparison with Cars.drive (claim C1):
the spec lists the sub-steps as acceleration first, then kinematics, then the
boundary clamp. -/
def Cars.driveSpecOrder (cosDeg sinDeg : ℚ → ℚ) (friction : ℚ) (mapW mapH : ℤ)
    (c : Cars) (direction_x direction_y dt : ℚ) : Cars :=
  Cars._boundaries mapW mapH
    (Cars._physics cosDeg sinDeg (Cars._acceleration friction c direction_y dt)
      direction_x dt)

/-- model.Projectile: float position, fixed direction and speed, damage
payload, finite range and the cumulative distance already travelled. -/
structure Projectile where
  position_x : ℚ
  position_y : ℚ
  direction_x : ℚ
  direction_y : ℚ
  damage : ℤ
  speed : ℚ
  max_distance : ℚ
  distance_travelled : ℚ
  rect : Rect
  deriving DecidableEq

/-- Projectile.move: straight-line step speed*dt along the stored direction,
box re-sync, accumulate the distance, and return False exactly when the
cumulative distance now strictly exceeds max_distance (True otherwise). -/
def Projectile.move (p : Projectile) (dt : ℚ) : Projectile × Bool :=
  let step_distance := p.speed * dt
  let px := p.position_x + step_distance * p.direction_x
  let py := p.position_y + step_distance * p.direction_y
  let p2 := { p with position_x := px, position_y := py,
                     rect := { p.rect with x := pyInt px, y := pyInt py },
                     distance_travelled := p.distance_travelled + step_distance }
  if p2.max_distance < p2.distance_travelled then (p2, false) else (p2, true)

/-- The outcomes of a sequence of Projectile.move calls, in order. -/
def Projectile.runMoves (p : Projectile) : List ℚ → List Bool
  | [] => []
  | dt :: rest =>
    let r := Projectile.move p dt
    r.2 :: Projectile.runMoves r.1 rest

/-- The cumulative distance travelled after the first k of the given calls. -/
def Projectile.cumDistance (p : Projectile) (dts : List ℚ) (k : ℕ) : ℚ :=
  p.distance_travelled + p.speed * (dts.take k).sum

/-- model.Enemy, reduced to the state the combat resolution inspects:
box, health, death timestamp and inventory. -/
structure Enemy where
  rect : Rect
  hp : ℤ
  death_time : ℤ
  inventory : Inventory
  deriving DecidableEq

/-- Player.item_dropper as the Enemy inherits it: move the item under the
inventory cursor (when any) to the holder's box origin, append it to the
ground list and clear the slot. -/
def Enemy.item_dropper (e : Enemy) (items_spawned : List Item) : Enemy × List Item :=
  match e.inventory.selectedSlot with
  | some item_to_drop =>
    let item2 := { item_to_drop with coordinate_x := e.rect.x, coordinate_y := e.rect.y }
    ({ e with inventory := { e.inventory with
         slots := e.inventory.slots.set e.inventory.selected_index.toNat none } },
     items_spawned ++ [item2])
  | none => (e, items_spawned)

/-- What the enemy scan of Projectile_Manager.move_projectiles does to the
one enemy it resolves against: subtract the projectile damage, and when the
health falls to 0 or below, award the score, stamp the death time with the
current tick and run the item drop. -/
def Projectile_Manager.apply_hit (damage points_given now score : ℤ)
    (ground : List Item) (e : Enemy) : Enemy × ℤ × List Item :=
  let e1 := { e with hp := e.hp - damage }
  if e1.hp ≤ 0 then
    let e2 := { e1 with death_time := now }
    let r := e2.item_dropper ground
    (r.1, score + points_given, r.2)
  else
    (e1, score, ground)

/-- The result of resolving one projectile against the enemy list: the new
enemy list, score and ground items, and whether the projectile was removed. -/
structure CombatResult where
  enemies : List Enemy
  score : ℤ
  ground : List Item
  removed : Bool
  deriving DecidableEq

/-- The inner enemy loop of Projectile_Manager.move_projectiles: walk the
enemies in list order; at the first enemy that overlaps the projectile box
and has hp > 0, apply the hit and stop (the projectile is then removed);
every enemy before it, and every enemy after it, is left as it was. -/
def Projectile_Manager.resolve_enemies (proj : Projectile) (points_given now score : ℤ)
    (ground : List Item) : List Enemy → CombatResult
  | [] => { enemies := [], score := score, ground := ground, removed := false }
  | e :: rest =>
    if proj.rect.colliderect e.rect ∧ 0 < e.hp then
      let r := Projectile_Manager.apply_hit proj.damage points_given now score ground e
      { enemies := r.1 :: rest, score := r.2.1, ground := r.2.2, removed := true }
    else
      let r := Projectile_Manager.resolve_enemies proj points_given now score ground rest
      { r with enemies := e :: r.enemies }

/-- The final world state after Projectile_Manager.move_projectiles. -/
structure FrameResult where
  bullets : List Projectile
  enemies : List Enemy
  score : ℤ
  ground : List Item
  deriving DecidableEq

/-- Projectile_Manager.move_projectiles: per projectile in list order,
advance it; when expired remove it and continue; otherwise run the enemy
scan, removing the projectile when it resolved against an enemy and keeping
the advanced projectile otherwise. -/
def Projectile_Manager.move_projectiles (dt : ℚ) (points_given now : ℤ) :
    List Projectile → List Enemy → ℤ → List Item → FrameResult
  | [], enemies, score, ground =>
    { bullets := [], enemies := enemies, score := score, ground := ground }
  | p :: rest, enemies, score, ground =>
    let m := Projectile.move p dt
    if m.2 = false then
      Projectile_Manager.move_projectiles dt points_given now rest enemies score ground
    else
      let r := Projectile_Manager.resolve_enemies m.1 points_given now score ground enemies
      if r.removed then
        Projectile_Manager.move_projectiles dt points_given now rest r.enemies r.score r.ground
      else
        let fr := Projectile_Manager.move_projectiles dt points_given now rest r.enemies r.score r.ground
        { fr with bullets := m.1 :: fr.bullets }

/-- One entry of config.spawnable_weapons, reduced to its spawn_frequency
pair (low, high) and an identity tag for the weapon it describes. -/
structure WeaponEntry where
  low : ℚ
  high : ℚ
  weapon_id : ℕ
  deriving DecidableEq, Repr

/-- config.spawnable_weapons of settings.py: crowbar (0.0, 0.2),
pistol (0.3, 0.4), rifle (0.5, 0.6), flamethrower (0.7, 0.8),
grenade (0.9, 1.0), in this order. -/
def Config.spawnable_weapons : List WeaponEntry :=
  [{ low := 0, high := 2/10, weapon_id := 0 },
   { low := 3/10, high := 4/10, weapon_id := 1 },
   { low := 5/10, high := 6/10, weapon_id := 2 },
   { low := 7/10, high := 8/10, weapon_id := 3 },
   { low := 9/10, high := 1, weapon_id := 4 }]

/-- The weapon-roll loop of Enemy_Manager.spawn_enemies (and likewise of
Item_Manager.spawn_items): the first catalog entry, in order, with
low <= roll <= high wins; later entries are not looked at. -/
def Enemy_Manager.weapon_for_roll (catalog : List WeaponEntry) (roll : ℚ) :
    Option WeaponEntry :=
  catalog.find? fun weapon => decide (weapon.low ≤ roll) && decide (roll ≤ weapon.high)

/-- Modelled from the spec words, for comparison with
Enemy_Manager.weapon_for_roll (claim C7): an entry matches exactly when the
roll lies in [low, high), the upper bound excluded. -/
def Enemy_Manager.weapon_for_roll_spec (catalog : List WeaponEntry) (roll : ℚ) :
    Option WeaponEntry :=
  catalog.find? fun weapon => decide (weapon.low ≤ roll) && decide (roll < weapon.high)

/-- The effect of the weapon roll on the freshly spawned enemy's inventory:
the matched entry is instantiated at coordinates (0, 0) and written into
slot 0; no match leaves the inventory as constructed (and raises nothing). -/
def Enemy_Manager.equip_spawned (catalog : List WeaponEntry) (roll : ℚ)
    (inv : Inventory) : Inventory :=
  match Enemy_Manager.weapon_for_roll catalog roll with
  | some weapon =>
    { inv with slots := inv.slots.set 0 (some
        { coordinate_x := 0, coordinate_y := 0, item_id := weapon.weapon_id }) }
  | none => inv

/-- Code point of the decimal digit d. -/
def digitChar (d : ℕ) : ℕ := 48 + d

/-- Decimal digit value of a code point, when it is one. -/
def charDigit (c : ℕ) : Option ℕ :=
  if 48 ≤ c ∧ c ≤ 57 then some (c - 48) else none

/-- Read a run of code points as decimal digit values; any non-digit makes
the whole read fail. -/
def parseDigits : List ℕ → Option (List ℕ)
  | [] => some []
  | c :: cs =>
    match charDigit c, parseDigits cs with
    | some d, some ds => some (d :: ds)
    | _, _ => none

/-- Python str(n) for a natural number: its decimal digits, most significant
first (and the single digit 0 for zero). -/
def pyStrNat (n : ℕ) : List ℕ :=
  if n = 0 then [digitChar 0] else ((Nat.digits 10 n).map digitChar).reverse

/-- Python str(n) for an int: a minus sign (code point 45) before the digits
of the absolute value when n is negative. -/
def pyStr (n : ℤ) : List ℕ :=
  if n < 0 then 45 :: pyStrNat n.natAbs else pyStrNat n.natAbs

/-- Python int(s) on the strings save_high_score can produce: an optional
minus sign followed by at least one decimal digit; anything else raises
ValueError, modelled as none. -/
def pyParseInt : List ℕ → Option ℤ
  | [] => none
  | c :: cs =>
    if c = 45 then
      match cs, parseDigits cs with
      | _ :: _, some ds => some (-((Nat.ofDigits 10 ds.reverse : ℕ) : ℤ))
      | _, _ => none
    else
      match parseDigits (c :: cs) with
      | some ds => some ((Nat.ofDigits 10 ds.reverse : ℕ) : ℤ)
      | none => none

/-- Config.load_high_score: the file contents (none when the file is
missing) parsed as an int; FileNotFoundError and ValueError both fall back
to 0. -/
def Config.load_high_score (file : Option (List ℕ)) : ℤ :=
  match file with
  | none => 0
  | some contents =>
    match pyParseInt contents with
    | some n => n
    | none => 0

/-- Config.save_high_score: the file now holds str(highscore). -/
def Config.save_high_score (highscore : ℤ) : Option (List ℕ) :=
  some (pyStr highscore)

/-- The vehicle scan of Controller.vehicle_handler when the player is on
foot: bind the first vehicle whose box overlaps the player's, re-sync that
vehicle's float position from its box, snap the player's box center to the
vehicle's and set visibility to the inverse of its hiding flag.  Vehicles
are identified by their index in cars_on_map. -/
def Controller.vehicle_scan (p : Player) : List Cars → ℕ → Player × List Cars
  | [], _ => (p, [])
  | v :: rest, i =>
    if p.rect.colliderect v.rect then
      let v2 := { v with position_x := ((v.rect.x : ℤ) : ℚ),
                         position_y := ((v.rect.y : ℤ) : ℚ) }
      let p2 := { p with
        current_vehicle := some i,
        rect := p.rect.setCenter v2.rect.centerx v2.rect.centery,
        visible := !v2.hiding' }
      (p2, v2 :: rest)
    else
      let r := Controller.vehicle_scan p rest (i + 1)
      (r.1, v :: r.2)

/-- Controller.vehicle_handler on the interact key event: when a vehicle is
possessed, exit it (this writes the box centerx into the dynamically created
attribute x, restores visibility and clears the possession, and touches
nothing else); otherwise scan the vehicles for an overlap to enter. -/
def Controller.vehicle_handler (interactKeyDown : Bool) (p : Player)
    (cars_on_map : List Cars) : Player × List Cars :=
  if interactKeyDown then
    match p.current_vehicle with
    | some _ =>
      ({ p with x := some p.rect.centerx, visible := true, current_vehicle := none },
       cars_on_map)
    | none => Controller.vehicle_scan p cars_on_map 0
  else (p, cars_on_map)

/-- Concrete scenario data used to instantiate the combat-resolution
theorems: a projectile that has just advanced into a cluster of enemies. -/
def demoProjectile : Projectile :=
  { position_x := 0, position_y := 0, direction_x := 1, direction_y := 0,
    damage := 25, speed := 10, max_distance := 100, distance_travelled := 0,
    rect := { x := 0, y := 0, w := 10, h := 10 } }

/-- A dead enemy overlapping the advanced projectile box. -/
def demoDeadEnemy : Enemy :=
  { rect := { x := 12, y := 0, w := 40, h := 60 }, hp := 0, death_time := 0,
    inventory := Inventory.init }

/-- The first live enemy overlapping the advanced projectile box. -/
def demoLiveEnemy : Enemy :=
  { rect := { x := 14, y := 0, w := 40, h := 60 }, hp := 100, death_time := 0,
    inventory := Inventory.init }

/-- A second live enemy also overlapping the advanced projectile box. -/
def demoOtherEnemy : Enemy :=
  { rect := { x := 16, y := 0, w := 40, h := 60 }, hp := 100, death_time := 0,
    inventory := Inventory.init }

/-- Concrete player used to instantiate the pickup theorem: at the spawn
corner with a fresh inventory. -/
def demoPlayer : Player :=
  { rect := { x := 0, y := 0, w := 40, h := 60 }, position_x := 0, position_y := 0,
    hp := 100, speed := 300, sprint_bonus := 100, inventory := Inventory.init,
    current_vehicle := none, visible := true, x := none }

/-- A ground item far from the demo player (no box overlap). -/
def demoFarItem : Item := { coordinate_x := 1000, coordinate_y := 1000, item_id := 1 }

/-- A ground item overlapping the demo player's box. -/
def demoNearItem : Item := { coordinate_x := 10, coordinate_y := 10, item_id := 2 }

/-! ## Supporting lemmas -/

theorem Inventory.add_items_fields (inv : Inventory) (item : Item) :
    (inv.add_items item).1.capacity = inv.capacity ∧
    (inv.add_items item).1.selected_index = inv.selected_index := by
  unfold Inventory.add_items
  split
  · exact ⟨rfl, rfl⟩
  · cases h : inv.slots.findIdx? Option.isNone <;> simp [h]

theorem Inventory.scroll_mem (inv : Inventory) (direction : ℤ)
    (hcap : 0 < inv.capacity) :
    0 ≤ (inv.scroll direction).selected_index ∧
    (inv.scroll direction).selected_index < (inv.capacity : ℤ) := by
  have hpos : (0 : ℤ) < (inv.capacity : ℤ) := Int.natCast_pos.mpr hcap
  refine ⟨Int.emod_nonneg _ (ne_of_gt hpos), Int.emod_lt_of_pos _ hpos⟩

theorem Inventory.applyOp_inv (inv : Inventory) (op : InvOp)
    (hcap : 0 < inv.capacity) (h0 : 0 ≤ inv.selected_index)
    (h1 : inv.selected_index < (inv.capacity : ℤ)) :
    (inv.applyOp op).capacity = inv.capacity ∧
    0 ≤ (inv.applyOp op).selected_index ∧
    (inv.applyOp op).selected_index < (inv.capacity : ℤ) := by
  cases op with
  | add item =>
    have h := Inventory.add_items_fields inv item
    exact ⟨h.1, h.2 ▸ h0, h.2 ▸ h1⟩
  | select index =>
    simp only [Inventory.applyOp, Inventory.select_slot]
    split
    · next hin => exact ⟨rfl, hin.1, hin.2⟩
    · exact ⟨rfl, h0, h1⟩
  | scrollBy direction =>
    have h := Inventory.scroll_mem inv direction hcap
    exact ⟨rfl, h.1, h.2⟩

theorem Inventory.applyOps_inv (ops : List InvOp) (inv : Inventory)
    (hcap : 0 < inv.capacity) (h0 : 0 ≤ inv.selected_index)
    (h1 : inv.selected_index < (inv.capacity : ℤ)) :
    (inv.applyOps ops).capacity = inv.capacity ∧
    0 ≤ (inv.applyOps ops).selected_index ∧
    (inv.applyOps ops).selected_index < (inv.capacity : ℤ) := by
  induction ops generalizing inv with
  | nil => exact ⟨rfl, h0, h1⟩
  | cons op ops ih =>
    have hstep := Inventory.applyOp_inv inv op hcap h0 h1
    have hrec := ih (inv.applyOp op) (hstep.1 ▸ hcap) hstep.2.1 (hstep.1 ▸ hstep.2.2)
    exact ⟨hstep.1 ▸ hrec.1, hrec.2.1, hstep.1 ▸ hrec.2.2⟩

/-! ## Claim theorems -/

/-- Claim C5: starting from any inventory whose cursor is in range, any
sequence of add_items, select_slot and scroll calls keeps selected_index in
[0, capacity); select_slot with an out-of-range index is silently ignored
leaving the inventory entirely unchanged, and scroll with any delta wraps
selected_index modulo capacity. -/
theorem claim_C5 (inv : Inventory) (ops : List InvOp) (index direction : ℤ)
    (hcap : 0 < inv.capacity) (h0 : 0 ≤ inv.selected_index)
    (h1 : inv.selected_index < (inv.capacity : ℤ))
    (hbad : ¬(0 ≤ index ∧ index < (inv.capacity : ℤ))) :
    (0 ≤ (inv.applyOps ops).selected_index ∧
      (inv.applyOps ops).selected_index < ((inv.applyOps ops).capacity : ℤ)) ∧
    inv.select_slot index = inv ∧
    (inv.scroll direction).selected_index
      = (inv.selected_index + direction) % (inv.capacity : ℤ) := by
  have h := Inventory.applyOps_inv ops inv hcap h0 h1
  refine ⟨⟨h.2.1, h.1 ▸ h.2.2⟩, ?_, rfl⟩
  unfold Inventory.select_slot
  exact if_neg hbad

/-- Witness for claim C5 at the freshly constructed inventory, a concrete
call sequence, the out-of-range index 99 and the delta -13. -/
theorem claim_C5_witness :
    (0 < Inventory.init.capacity ∧ 0 ≤ Inventory.init.selected_index ∧
      Inventory.init.selected_index < (Inventory.init.capacity : ℤ) ∧
      ¬((0 : ℤ) ≤ 99 ∧ (99 : ℤ) < (Inventory.init.capacity : ℤ))) ∧
    ((0 ≤ (Inventory.init.applyOps
          [InvOp.scrollBy (-13), InvOp.add { coordinate_x := 0, coordinate_y := 0, item_id := 7 },
           InvOp.select 5]).selected_index ∧
        (Inventory.init.applyOps
          [InvOp.scrollBy (-13), InvOp.add { coordinate_x := 0, coordinate_y := 0, item_id := 7 },
           InvOp.select 5]).selected_index
          < ((Inventory.init.applyOps
          [InvOp.scrollBy (-13), InvOp.add { coordinate_x := 0, coordinate_y := 0, item_id := 7 },
           InvOp.select 5]).capacity : ℤ)) ∧
      Inventory.init.select_slot 99 = Inventory.init ∧
      (Inventory.init.scroll (-13)).selected_index
        = (Inventory.init.selected_index + (-13)) % (Inventory.init.capacity : ℤ)) :=
  ⟨by decide,
   claim_C5 Inventory.init
     [InvOp.scrollBy (-13), InvOp.add { coordinate_x := 0, coordinate_y := 0, item_id := 7 },
      InvOp.select 5] 99 (-13) (by decide) (by decide) (by decide) (by decide)⟩

/-- Claim C10: the interact key while a vehicle is possessed makes the player
visible and clears the possession, and leaves the float position, box,
health and inventory untouched (the player stays at the vehicle's center on
exit); the vehicle list is also untouched. -/
theorem claim_C10 (p : Player) (cars_on_map : List Cars) (v : ℕ)
    (h : p.current_vehicle = some v) :
    ((Controller.vehicle_handler true p cars_on_map).1.visible = true ∧
      (Controller.vehicle_handler true p cars_on_map).1.current_vehicle = none) ∧
    (Controller.vehicle_handler true p cars_on_map).1.position_x = p.position_x ∧
    (Controller.vehicle_handler true p cars_on_map).1.position_y = p.position_y ∧
    (Controller.vehicle_handler true p cars_on_map).1.rect = p.rect ∧
    (Controller.vehicle_handler true p cars_on_map).1.hp = p.hp ∧
    (Controller.vehicle_handler true p cars_on_map).1.inventory = p.inventory ∧
    (Controller.vehicle_handler true p cars_on_map).2 = cars_on_map := by
  simp [Controller.vehicle_handler, h]

/-- Witness for claim C10: a concrete player possessing vehicle 0. -/
theorem claim_C10_witness :
    (({ rect := { x := 100, y := 100, w := 40, h := 60 }, position_x := 115,
        position_y := 130, hp := 100, speed := 300, sprint_bonus := 100,
        inventory := Inventory.init, current_vehicle := some 0, visible := false,
        x := none } : Player).current_vehicle = some 0) ∧
    (((Controller.vehicle_handler true
        { rect := { x := 100, y := 100, w := 40, h := 60 }, position_x := 115,
          position_y := 130, hp := 100, speed := 300, sprint_bonus := 100,
          inventory := Inventory.init, current_vehicle := some 0, visible := false,
          x := none } []).1.visible = true ∧
      (Controller.vehicle_handler true
        { rect := { x := 100, y := 100, w := 40, h := 60 }, position_x := 115,
          position_y := 130, hp := 100, speed := 300, sprint_bonus := 100,
          inventory := Inventory.init, current_vehicle := some 0, visible := false,
          x := none } []).1.current_vehicle = none) ∧
      (Controller.vehicle_handler true
        { rect := { x := 100, y := 100, w := 40, h := 60 }, position_x := 115,
          position_y := 130, hp := 100, speed := 300, sprint_bonus := 100,
          inventory := Inventory.init, current_vehicle := some 0, visible := false,
          x := none } []).1.position_x = 115 ∧
      (Controller.vehicle_handler true
        { rect := { x := 100, y := 100, w := 40, h := 60 }, position_x := 115,
          position_y := 130, hp := 100, speed := 300, sprint_bonus := 100,
          inventory := Inventory.init, current_vehicle := some 0, visible := false,
          x := none } []).1.position_y = 130 ∧
      (Controller.vehicle_handler true
        { rect := { x := 100, y := 100, w := 40, h := 60 }, position_x := 115,
          position_y := 130, hp := 100, speed := 300, sprint_bonus := 100,
          inventory := Inventory.init, current_vehicle := some 0, visible := false,
          x := none } []).1.rect = { x := 100, y := 100, w := 40, h := 60 } ∧
      (Controller.vehicle_handler true
        { rect := { x := 100, y := 100, w := 40, h := 60 }, position_x := 115,
          position_y := 130, hp := 100, speed := 300, sprint_bonus := 100,
          inventory := Inventory.init, current_vehicle := some 0, visible := false,
          x := none } []).1.hp = 100 ∧
      (Controller.vehicle_handler true
        { rect := { x := 100, y := 100, w := 40, h := 60 }, position_x := 115,
          position_y := 130, hp := 100, speed := 300, sprint_bonus := 100,
          inventory := Inventory.init, current_vehicle := some 0, visible := false,
          x := none } []).1.inventory = Inventory.init ∧
      (Controller.vehicle_handler true
        { rect := { x := 100, y := 100, w := 40, h := 60 }, position_x := 115,
          position_y := 130, hp := 100, speed := 300, sprint_bonus := 100,
          inventory := Inventory.init, current_vehicle := some 0, visible := false,
          x := none } []).2 = []) :=
  ⟨rfl, claim_C10 _ [] 0 rfl⟩

theorem find?_first {α : Type _} (p : α → Bool) (l : List α) :
    (∀ a, l.find? p = some a →
      p a = true ∧ ∃ l1 l2, l = l1 ++ a :: l2 ∧ ∀ b ∈ l1, p b = false) ∧
    (l.find? p = none → ∀ b ∈ l, p b = false) := by
  induction l with
  | nil => exact ⟨fun a h => by simp [List.find?] at h, fun _ b hb => by simp at hb⟩
  | cons x xs ih =>
    by_cases hx : p x = true
    · refine ⟨fun a h => ?_, fun h => ?_⟩
      · rw [List.find?_cons_of_pos _ hx] at h
        cases h
        exact ⟨hx, [], xs, rfl, fun b hb => by simp at hb⟩
      · rw [List.find?_cons_of_pos _ hx] at h
        cases h
    · have hx' : p x = false := by simpa using hx
      refine ⟨fun a h => ?_, fun h => ?_⟩
      · rw [List.find?_cons_of_neg _ hx] at h
        obtain ⟨hpa, l1, l2, hsplit, hall⟩ := ih.1 a h
        refine ⟨hpa, x :: l1, l2, by simp [hsplit], fun b hb => ?_⟩
        rcases List.mem_cons.mp hb with rfl | hb
        · exact hx'
        · exact hall b hb
      · rw [List.find?_cons_of_neg _ hx] at h
        intro b hb
        rcases List.mem_cons.mp hb with rfl | hb
        · exact hx'
        · exact ih.2 h b hb

/-- Claim C7 (amended): a catalog entry matches the roll exactly when
low <= roll <= high, the upper bound included (the closed interval, not the
half-open one the spec words claim); the first matching entry in catalog
order is placed into inventory slot 0, and a roll matching no entry leaves
the inventory without a weapon rather than raising anything. -/
theorem claim_C7 (catalog : List WeaponEntry) (roll : ℚ) (inv : Inventory)
    (weapon : WeaponEntry)
    (h : Enemy_Manager.weapon_for_roll catalog roll = some weapon) :
    ((weapon.low ≤ roll ∧ roll ≤ weapon.high) ∧
      ∃ l1 l2, catalog = l1 ++ weapon :: l2 ∧
        ∀ w ∈ l1, ¬(w.low ≤ roll ∧ roll ≤ w.high)) ∧
    Enemy_Manager.equip_spawned catalog roll inv =
      { inv with slots := inv.slots.set 0 (some
          { coordinate_x := 0, coordinate_y := 0, item_id := weapon.weapon_id }) } ∧
    (∀ catalog2 : List WeaponEntry,
      Enemy_Manager.weapon_for_roll catalog2 roll = none →
        (∀ w ∈ catalog2, ¬(w.low ≤ roll ∧ roll ≤ w.high)) ∧
        ∀ inv2 : Inventory, Enemy_Manager.equip_spawned catalog2 roll inv2 = inv2) := by
  unfold Enemy_Manager.weapon_for_roll at h
  refine ⟨?_, ?_, ?_⟩
  · obtain ⟨hpa, l1, l2, hsplit, hall⟩ :=
      (find?_first (fun w => decide (w.low ≤ roll) && decide (roll ≤ w.high)) catalog).1
        weapon h
    refine ⟨by simpa using hpa, l1, l2, hsplit, fun w hw => ?_⟩
    have := hall w hw
    simpa using this
  · unfold Enemy_Manager.equip_spawned Enemy_Manager.weapon_for_roll
    rw [h]
  · intro catalog2 h2
    unfold Enemy_Manager.weapon_for_roll at h2
    refine ⟨fun w hw => ?_, fun inv2 => ?_⟩
    · have := (find?_first (fun w => decide (w.low ≤ roll) && decide (roll ≤ w.high))
        catalog2).2 h2 w hw
      simpa using this
    · unfold Enemy_Manager.equip_spawned Enemy_Manager.weapon_for_roll
      rw [h2]

/-- Witness for claim C7: the roll 0.31 against the real catalog selects the
pistol entry (0.3, 0.4). -/
theorem claim_C7_witness :
    (Enemy_Manager.weapon_for_roll Config.spawnable_weapons (31/100)
      = some { low := 3/10, high := 4/10, weapon_id := 1 }) ∧
    ((((3 : ℚ)/10 ≤ 31/100 ∧ (31 : ℚ)/100 ≤ 4/10) ∧
      ∃ l1 l2, Config.spawnable_weapons
          = l1 ++ { low := 3/10, high := 4/10, weapon_id := 1 } :: l2 ∧
        ∀ w ∈ l1, ¬(w.low ≤ (31 : ℚ)/100 ∧ (31 : ℚ)/100 ≤ w.high)) ∧
    Enemy_Manager.equip_spawned Config.spawnable_weapons (31/100) Inventory.init =
      { Inventory.init with slots := Inventory.init.slots.set 0 (some
          { coordinate_x := 0, coordinate_y := 0, item_id := 1 }) } ∧
    (∀ catalog2 : List WeaponEntry,
      Enemy_Manager.weapon_for_roll catalog2 (31/100) = none →
        (∀ w ∈ catalog2, ¬(w.low ≤ (31 : ℚ)/100 ∧ (31 : ℚ)/100 ≤ w.high)) ∧
        ∀ inv2 : Inventory,
          Enemy_Manager.equip_spawned catalog2 (31/100) inv2 = inv2)) :=
  ⟨by norm_num [Enemy_Manager.weapon_for_roll, Config.spawnable_weapons, List.find?],
   claim_C7 Config.spawnable_weapons (31/100) Inventory.init
     { low := 3/10, high := 4/10, weapon_id := 1 }
     (by norm_num [Enemy_Manager.weapon_for_roll, Config.spawnable_weapons, List.find?])⟩

/-- Counterexample to claim C7 as stated: at the roll 0.2, the top of the
crowbar range (0.0, 0.2), the code matches the crowbar although 0.2 lies in
no entry under the half-open [low, high) reading, under which no entry would
match at all. -/
theorem claim_C7_counterexample :
    Enemy_Manager.weapon_for_roll Config.spawnable_weapons (2/10)
        = some { low := 0, high := 2/10, weapon_id := 0 } ∧
    Enemy_Manager.weapon_for_roll_spec Config.spawnable_weapons (2/10) = none := by
  constructor
  · norm_num [Enemy_Manager.weapon_for_roll, Config.spawnable_weapons, List.find?]
  · norm_num [Enemy_Manager.weapon_for_roll_spec, Config.spawnable_weapons, List.find?]

/-- Claim C1 (amended): each Cars.drive call executes its three sub-steps in
the source's order: first the kinematic update (polar displacement plus the
conditional heading rotation), then the acceleration/friction update of
current_speed, then the boundary clamp. -/
theorem claim_C1 (cosDeg sinDeg : ℚ → ℚ) (friction : ℚ) (mapW mapH : ℤ)
    (c : Cars) (direction_x direction_y dt : ℚ) :
    Cars.drive cosDeg sinDeg friction mapW mapH c direction_x direction_y dt =
      Cars._boundaries mapW mapH
        (Cars._acceleration friction
          (Cars._physics cosDeg sinDeg c direction_x dt) direction_y dt) := rfl

/-- Counterexample to claim C1 as stated: a stationary car given throttle for
one step.  Under the source order (kinematics before acceleration) the car
does not move this frame, position_x stays 2000; under the spec's claimed
order (acceleration before kinematics) it would already move to 2450.
The trig parameters are the exact values at the heading 0. -/
theorem claim_C1_counterexample :
    (Cars.drive (fun _ => 1) (fun _ => 0) 900 6000 4000
      { rect := { x := 2000, y := 2000, w := 50, h := 70 }, position_x := 2000,
        position_y := 2000, max_speed := 800, acceleration := 450,
        rotation_speed := 60, health := 100, hiding' := true,
        current_speed := 0, angle := 0 } 0 (-1) 1).position_x = 2000 ∧
    (Cars.driveSpecOrder (fun _ => 1) (fun _ => 0) 900 6000 4000
      { rect := { x := 2000, y := 2000, w := 50, h := 70 }, position_x := 2000,
        position_y := 2000, max_speed := 800, acceleration := 450,
        rotation_speed := 60, health := 100, hiding' := true,
        current_speed := 0, angle := 0 } 0 (-1) 1).position_x = 2450 ∧
    Cars.drive (fun _ => 1) (fun _ => 0) 900 6000 4000
      { rect := { x := 2000, y := 2000, w := 50, h := 70 }, position_x := 2000,
        position_y := 2000, max_speed := 800, acceleration := 450,
        rotation_speed := 60, health := 100, hiding' := true,
        current_speed := 0, angle := 0 } 0 (-1) 1 ≠
    Cars.driveSpecOrder (fun _ => 1) (fun _ => 0) 900 6000 4000
      { rect := { x := 2000, y := 2000, w := 50, h := 70 }, position_x := 2000,
        position_y := 2000, max_speed := 800, acceleration := 450,
        rotation_speed := 60, health := 100, hiding' := true,
        current_speed := 0, angle := 0 } 0 (-1) 1 := by
  refine ⟨?_, ?_, ?_⟩
  · norm_num [Cars.drive, Cars._physics, Cars._acceleration, Cars._boundaries, pyInt]
  · norm_num [Cars.driveSpecOrder, Cars._physics, Cars._acceleration,
      Cars._boundaries, pyInt]
  · intro hEq
    have h1 : (Cars.drive (fun _ => 1) (fun _ => 0) 900 6000 4000
      { rect := { x := 2000, y := 2000, w := 50, h := 70 }, position_x := 2000,
        position_y := 2000, max_speed := 800, acceleration := 450,
        rotation_speed := 60, health := 100, hiding' := true,
        current_speed := 0, angle := 0 } 0 (-1) 1).position_x = 2000 := by
      norm_num [Cars.drive, Cars._physics, Cars._acceleration, Cars._boundaries, pyInt]
    have h2 : (Cars.driveSpecOrder (fun _ => 1) (fun _ => 0) 900 6000 4000
      { rect := { x := 2000, y := 2000, w := 50, h := 70 }, position_x := 2000,
        position_y := 2000, max_speed := 800, acceleration := 450,
        rotation_speed := 60, health := 100, hiding' := true,
        current_speed := 0, angle := 0 } 0 (-1) 1).position_x = 2450 := by
      norm_num [Cars.driveSpecOrder, Cars._physics, Cars._acceleration,
        Cars._boundaries, pyInt]
    rw [hEq, h2] at h1
    norm_num at h1

theorem Cars._physics_fields (cosDeg sinDeg : ℚ → ℚ) (c : Cars) (dx dt : ℚ) :
    (Cars._physics cosDeg sinDeg c dx dt).current_speed = c.current_speed ∧
    (Cars._physics cosDeg sinDeg c dx dt).max_speed = c.max_speed ∧
    (Cars._physics cosDeg sinDeg c dx dt).acceleration = c.acceleration := by
  simp only [Cars._physics]
  split <;> exact ⟨rfl, rfl, rfl⟩

theorem Cars._acceleration_abs_le (friction : ℚ) (c : Cars) (dy dt dtmax : ℚ)
    (hacc : 0 ≤ c.acceleration) (hfr : 0 ≤ friction)
    (hdt0 : 0 ≤ dt) (hdt1 : dt ≤ dtmax)
    (hinv : |c.current_speed| ≤ c.max_speed + c.acceleration * dtmax) :
    |(Cars._acceleration friction c dy dt).current_speed|
      ≤ c.max_speed + c.acceleration * dtmax := by
  have hB : 0 ≤ c.max_speed + c.acceleration * dtmax := le_trans (abs_nonneg _) hinv
  have hadt : c.acceleration * dt ≤ c.acceleration * dtmax :=
    mul_le_mul_of_nonneg_left hdt1 hacc
  have hadt0 : 0 ≤ c.acceleration * dt := mul_nonneg hacc hdt0
  have hfdt0 : 0 ≤ friction * dt := mul_nonneg hfr hdt0
  have hlo := (abs_le.mp hinv).1
  have hhi := (abs_le.mp hinv).2
  simp only [Cars._acceleration]
  split_ifs with h1 h2 h3 h4 h5 h6 h7 <;>
    (try dsimp only) <;>
    rw [abs_le] <;>
    constructor <;>
    (try obtain ⟨hc1, hc2⟩ := h2) <;>
    (try obtain ⟨hd1, hd2⟩ := h3) <;>
    linarith

theorem Cars._boundaries_speed (mapW mapH : ℤ) (c : Cars) :
    (Cars._boundaries mapW mapH c).current_speed = c.current_speed ∨
    (Cars._boundaries mapW mapH c).current_speed = 0 := by
  simp only [Cars._boundaries]
  split_ifs <;> simp

/-- Claim C2 (amended): Cars.drive does not preserve the strict cap
|current_speed| <= max_speed; what every call with 0 <= dt <= dtmax does
preserve (for nonnegative acceleration and friction) is the one-increment
slack bound |current_speed| <= max_speed + acceleration * dtmax, because the
cap is tested before, not after, the acceleration increment is added. -/
theorem claim_C2 (cosDeg sinDeg : ℚ → ℚ) (friction : ℚ) (mapW mapH : ℤ) (c : Cars)
    (direction_x direction_y dt dtmax : ℚ)
    (hacc : 0 ≤ c.acceleration) (hfr : 0 ≤ friction)
    (hdt0 : 0 ≤ dt) (hdt1 : dt ≤ dtmax)
    (hinv : |c.current_speed| ≤ c.max_speed + c.acceleration * dtmax) :
    |(Cars.drive cosDeg sinDeg friction mapW mapH c
        direction_x direction_y dt).current_speed|
      ≤ c.max_speed + c.acceleration * dtmax := by
  have hB : 0 ≤ c.max_speed + c.acceleration * dtmax := le_trans (abs_nonneg _) hinv
  have hp := Cars._physics_fields cosDeg sinDeg c direction_x dt
  have h1 : |(Cars._physics cosDeg sinDeg c direction_x dt).current_speed|
      ≤ (Cars._physics cosDeg sinDeg c direction_x dt).max_speed
        + (Cars._physics cosDeg sinDeg c direction_x dt).acceleration * dtmax := by
    rw [hp.1, hp.2.1, hp.2.2]; exact hinv
  have h2 := Cars._acceleration_abs_le friction
    (Cars._physics cosDeg sinDeg c direction_x dt) direction_y dt dtmax
    (hp.2.2 ▸ hacc) hfr hdt0 hdt1 h1
  rw [hp.2.1, hp.2.2] at h2
  have hb := Cars._boundaries_speed mapW mapH
    (Cars._acceleration friction (Cars._physics cosDeg sinDeg c direction_x dt)
      direction_y dt)
  unfold Cars.drive
  rcases hb with h | h
  · rw [h]; exact h2
  · rw [h]; simpa using hB

/-- Witness for claim C2 (amended): the car-config vehicle at speed 799 with
throttle held, dt = dtmax = 1. -/
theorem claim_C2_witness :
    ((0 : ℚ) ≤ 450 ∧ (0 : ℚ) ≤ 900 ∧ (0 : ℚ) ≤ 1 ∧ (1 : ℚ) ≤ 1 ∧
      |(799 : ℚ)| ≤ 800 + 450 * 1) ∧
    |(Cars.drive (fun _ => 1) (fun _ => 0) 900 6000 4000
        { rect := { x := 2000, y := 2000, w := 50, h := 70 }, position_x := 2000,
          position_y := 2000, max_speed := 800, acceleration := 450,
          rotation_speed := 60, health := 100, hiding' := true,
          current_speed := 799, angle := 0 } 0 (-1) 1).current_speed|
      ≤ 800 + 450 * 1 :=
  ⟨by norm_num,
   claim_C2 (fun _ => 1) (fun _ => 0) 900 6000 4000
     { rect := { x := 2000, y := 2000, w := 50, h := 70 }, position_x := 2000,
       position_y := 2000, max_speed := 800, acceleration := 450,
       rotation_speed := 60, health := 100, hiding' := true,
       current_speed := 799, angle := 0 } 0 (-1) 1 1
     (by norm_num) (by norm_num) (by norm_num) (by norm_num) (by norm_num)⟩

/-- Counterexample to claim C2 as stated: the car-config vehicle at speed
799 satisfies |current_speed| <= max_speed = 800, but one drive call with
throttle held and dt = 1 accelerates it to 1249, violating the cap (the
guard tests the cap before adding the full acceleration * dt increment). -/
theorem claim_C2_counterexample :
    (|(799 : ℚ)| ≤
      ({ rect := { x := 2000, y := 2000, w := 50, h := 70 }, position_x := 2000,
         position_y := 2000, max_speed := 800, acceleration := 450,
         rotation_speed := 60, health := 100, hiding' := true,
         current_speed := 799, angle := 0 } : Cars).max_speed ∧
      ({ rect := { x := 2000, y := 2000, w := 50, h := 70 }, position_x := 2000,
         position_y := 2000, max_speed := 800, acceleration := 450,
         rotation_speed := 60, health := 100, hiding' := true,
         current_speed := 799, angle := 0 } : Cars).current_speed = 799) ∧
    ¬(|(Cars.drive (fun _ => 1) (fun _ => 0) 900 6000 4000
        { rect := { x := 2000, y := 2000, w := 50, h := 70 }, position_x := 2000,
          position_y := 2000, max_speed := 800, acceleration := 450,
          rotation_speed := 60, health := 100, hiding' := true,
          current_speed := 799, angle := 0 } 0 (-1) 1).current_speed|
      ≤ (Cars.drive (fun _ => 1) (fun _ => 0) 900 6000 4000
        { rect := { x := 2000, y := 2000, w := 50, h := 70 }, position_x := 2000,
          position_y := 2000, max_speed := 800, acceleration := 450,
          rotation_speed := 60, health := 100, hiding' := true,
          current_speed := 799, angle := 0 } 0 (-1) 1).max_speed) := by
  refine ⟨⟨by norm_num, rfl⟩, ?_⟩
  norm_num [Cars.drive, Cars._physics, Cars._acceleration, Cars._boundaries, pyInt]

theorem Projectile.move_fields (p : Projectile) (dt : ℚ) :
    (Projectile.move p dt).1.distance_travelled = p.distance_travelled + p.speed * dt ∧
    (Projectile.move p dt).1.speed = p.speed ∧
    (Projectile.move p dt).1.max_distance = p.max_distance ∧
    (Projectile.move p dt).2
      = decide (p.distance_travelled + p.speed * dt ≤ p.max_distance) := by
  simp only [Projectile.move]
  split_ifs with h
  · exact ⟨rfl, rfl, rfl, (decide_eq_false (not_le.mpr h)).symm⟩
  · exact ⟨rfl, rfl, rfl, (decide_eq_true (not_lt.mp h)).symm⟩

theorem Projectile.runMoves_get? (p : Projectile) (dts : List ℚ) (k : ℕ) :
    (Projectile.runMoves p dts).get? k =
      if k < dts.length then
        some (decide (Projectile.cumDistance p dts (k + 1) ≤ p.max_distance))
      else none := by
  induction dts generalizing p k with
  | nil => simp [Projectile.runMoves]
  | cons dt rest ih =>
    have hm := Projectile.move_fields p dt
    cases k with
    | zero =>
      simp only [Projectile.runMoves, List.get?, List.length_cons]
      rw [if_pos (Nat.succ_pos _)]
      rw [hm.2.2.2]
      have : Projectile.cumDistance p (dt :: rest) 1
          = p.distance_travelled + p.speed * dt := by
        simp [Projectile.cumDistance]
      rw [this]
    | succ k =>
      simp only [Projectile.runMoves, List.get?, List.length_cons]
      rw [ih]
      have hcum : Projectile.cumDistance (Projectile.move p dt).1 rest (k + 1)
          = Projectile.cumDistance p (dt :: rest) (k + 2) := by
        simp only [Projectile.cumDistance, hm.1, hm.2.1, List.take, List.sum_cons]
        ring
      rw [hcum, hm.2.2.1]
      simp [Nat.succ_lt_succ_iff]

/-- Claim C4: over any sequence of move(dt) calls, the projectile reports
the expired signal (False) on exactly the first call after which the
cumulative distance strictly exceeds max_distance, and reports True on
every earlier call. -/
theorem claim_C4 (p : Projectile) (dts : List ℚ) (j : ℕ)
    (hj : j < dts.length)
    (hexceed : p.max_distance < Projectile.cumDistance p dts (j + 1))
    (hbefore : ∀ i, i < j → Projectile.cumDistance p dts (i + 1) ≤ p.max_distance) :
    (Projectile.runMoves p dts).get? j = some false ∧
    ∀ i, i < j → (Projectile.runMoves p dts).get? i = some true := by
  constructor
  · rw [Projectile.runMoves_get?, if_pos hj]
    simp [decide_eq_false (not_le.mpr hexceed)]
  · intro i hi
    rw [Projectile.runMoves_get?, if_pos (lt_trans hi hj)]
    simp [decide_eq_true (hbefore i hi)]

/-- Witness for claim C4: speed 3, range 10, four unit-time calls; the
cumulative distances are 3, 6, 9, 12, so the fourth call is the first to
report expired. -/
theorem claim_C4_witness :
    ((3 : ℕ) < [(1 : ℚ), 1, 1, 1].length ∧
      (10 : ℚ) < Projectile.cumDistance
        { position_x := 0, position_y := 0, direction_x := 1, direction_y := 0,
          damage := 25, speed := 3, max_distance := 10, distance_travelled := 0,
          rect := { x := 0, y := 0, w := 10, h := 10 } } [1, 1, 1, 1] 4 ∧
      ∀ i, i < 3 → Projectile.cumDistance
        { position_x := 0, position_y := 0, direction_x := 1, direction_y := 0,
          damage := 25, speed := 3, max_distance := 10, distance_travelled := 0,
          rect := { x := 0, y := 0, w := 10, h := 10 } } [1, 1, 1, 1] (i + 1) ≤ 10) ∧
    ((Projectile.runMoves
        { position_x := 0, position_y := 0, direction_x := 1, direction_y := 0,
          damage := 25, speed := 3, max_distance := 10, distance_travelled := 0,
          rect := { x := 0, y := 0, w := 10, h := 10 } } [1, 1, 1, 1]).get? 3
        = some false ∧
      ∀ i, i < 3 → (Projectile.runMoves
        { position_x := 0, position_y := 0, direction_x := 1, direction_y := 0,
          damage := 25, speed := 3, max_distance := 10, distance_travelled := 0,
          rect := { x := 0, y := 0, w := 10, h := 10 } } [1, 1, 1, 1]).get? i
        = some true) :=
  ⟨⟨by norm_num,
    by norm_num [Projectile.cumDistance, List.take, List.sum_cons],
    by intro i hi
       interval_cases i <;>
         norm_num [Projectile.cumDistance, List.take, List.sum_cons]⟩,
   claim_C4
     { position_x := 0, position_y := 0, direction_x := 1, direction_y := 0,
       damage := 25, speed := 3, max_distance := 10, distance_travelled := 0,
       rect := { x := 0, y := 0, w := 10, h := 10 } } [1, 1, 1, 1] 3
     (by norm_num)
     (by norm_num [Projectile.cumDistance, List.take, List.sum_cons])
     (by intro i hi
         interval_cases i <;>
           norm_num [Projectile.cumDistance, List.take, List.sum_cons])⟩

theorem Enemy.item_dropper_hp (e : Enemy) (ground : List Item) :
    (e.item_dropper ground).1.hp = e.hp := by
  rcases hsel : e.inventory.selectedSlot with _ | it <;>
    simp [Enemy.item_dropper, hsel]

theorem Projectile_Manager.apply_hit_hp (damage points_given now score : ℤ)
    (ground : List Item) (e : Enemy) :
    (Projectile_Manager.apply_hit damage points_given now score ground e).1.hp
      = e.hp - damage := by
  simp only [Projectile_Manager.apply_hit]
  split_ifs with h
  · rw [Enemy.item_dropper_hp]
  · rfl

theorem Projectile_Manager.resolve_enemies_first (proj : Projectile)
    (points_given now score : ℤ) (ground : List Item)
    (l1 l2 : List Enemy) (e : Enemy)
    (hl1 : ∀ e2 ∈ l1, proj.rect.colliderect e2.rect = false ∨ e2.hp ≤ 0)
    (he : proj.rect.colliderect e.rect = true) (hhp : 0 < e.hp) :
    Projectile_Manager.resolve_enemies proj points_given now score ground
        (l1 ++ e :: l2) =
      { enemies := l1 ++ (Projectile_Manager.apply_hit proj.damage points_given now
            score ground e).1 :: l2,
        score := (Projectile_Manager.apply_hit proj.damage points_given now
            score ground e).2.1,
        ground := (Projectile_Manager.apply_hit proj.damage points_given now
            score ground e).2.2,
        removed := true } := by
  induction l1 with
  | nil =>
    simp only [List.nil_append, Projectile_Manager.resolve_enemies]
    rw [if_pos ⟨he, hhp⟩]
  | cons a l1 ih =>
    have hcond : ¬(proj.rect.colliderect a.rect = true ∧ 0 < a.hp) := by
      rcases hl1 a (by simp) with h | h
      · intro hc
        rw [h] at hc
        cases hc.1
      · intro hc
        exact absurd hc.2 (not_lt.mpr h)
    have ih2 := ih (fun e2 he2 => hl1 e2 (by simp [he2]))
    simp only [List.cons_append, Projectile_Manager.resolve_enemies, List.append_eq]
    rw [if_neg hcond, ih2]

/-- Claim C3: in move_projectiles, a non-expired projectile is tested against
the enemies in list order and resolves against only the first overlapping
enemy with hp > 0; that enemy takes the projectile's damage (apply_hit also
awards the score, stamps the death time and drops the held item when the
health falls to 0 or below) and the projectile is removed, while every enemy
before it (non-overlapping or dead) and after it is left unchanged. -/
theorem claim_C3 (dt : ℚ) (points_given now score : ℤ) (ground : List Item)
    (p : Projectile) (l1 l2 : List Enemy) (e : Enemy)
    (hcont : (Projectile.move p dt).2 = true)
    (hl1 : ∀ e2 ∈ l1,
      (Projectile.move p dt).1.rect.colliderect e2.rect = false ∨ e2.hp ≤ 0)
    (he : (Projectile.move p dt).1.rect.colliderect e.rect = true)
    (hhp : 0 < e.hp) :
    Projectile_Manager.move_projectiles dt points_given now [p] (l1 ++ e :: l2)
        score ground =
      { bullets := [],
        enemies := l1 ++ (Projectile_Manager.apply_hit (Projectile.move p dt).1.damage
            points_given now score ground e).1 :: l2,
        score := (Projectile_Manager.apply_hit (Projectile.move p dt).1.damage
            points_given now score ground e).2.1,
        ground := (Projectile_Manager.apply_hit (Projectile.move p dt).1.damage
            points_given now score ground e).2.2 } ∧
    (Projectile_Manager.apply_hit (Projectile.move p dt).1.damage
        points_given now score ground e).1.hp
      = e.hp - (Projectile.move p dt).1.damage := by
  have happ := Projectile_Manager.resolve_enemies_first (Projectile.move p dt).1
    points_given now score ground l1 l2 e hl1 he hhp
  constructor
  · simp [Projectile_Manager.move_projectiles, hcont, happ]
  · exact Projectile_Manager.apply_hit_hp _ _ _ _ _ _

/-- Witness for claim C3: the demo projectile advances to box (10, 0); the
dead enemy at x = 12 overlaps but is skipped, the live enemy at x = 14 takes
the 25 damage, and the second live overlapping enemy at x = 16 is untouched. -/
theorem claim_C3_witness :
    ((Projectile.move demoProjectile 1).2 = true ∧
      (∀ e2 ∈ [demoDeadEnemy],
        (Projectile.move demoProjectile 1).1.rect.colliderect e2.rect = false ∨
          e2.hp ≤ 0) ∧
      (Projectile.move demoProjectile 1).1.rect.colliderect demoLiveEnemy.rect
        = true ∧
      0 < demoLiveEnemy.hp) ∧
    (Projectile_Manager.move_projectiles 1 100 0 [demoProjectile]
        ([demoDeadEnemy] ++ demoLiveEnemy :: [demoOtherEnemy]) 0 [] =
      { bullets := [],
        enemies := [demoDeadEnemy] ++ (Projectile_Manager.apply_hit
            (Projectile.move demoProjectile 1).1.damage 100 0 0 []
            demoLiveEnemy).1 :: [demoOtherEnemy],
        score := (Projectile_Manager.apply_hit
            (Projectile.move demoProjectile 1).1.damage 100 0 0 []
            demoLiveEnemy).2.1,
        ground := (Projectile_Manager.apply_hit
            (Projectile.move demoProjectile 1).1.damage 100 0 0 []
            demoLiveEnemy).2.2 } ∧
      (Projectile_Manager.apply_hit
          (Projectile.move demoProjectile 1).1.damage 100 0 0 []
          demoLiveEnemy).1.hp
        = demoLiveEnemy.hp - (Projectile.move demoProjectile 1).1.damage) :=
  ⟨⟨by norm_num [Projectile.move, demoProjectile, pyInt],
    by
      intro e2 he2
      simp only [List.mem_singleton] at he2
      subst he2
      right
      norm_num [demoDeadEnemy],
    by
      norm_num [Projectile.move, demoProjectile, demoLiveEnemy, pyInt,
        Rect.colliderect],
    by norm_num [demoLiveEnemy]⟩,
   claim_C3 1 100 0 0 [] demoProjectile [demoDeadEnemy] [demoOtherEnemy]
     demoLiveEnemy
     (by norm_num [Projectile.move, demoProjectile, pyInt])
     (by
       intro e2 he2
       simp only [List.mem_singleton] at he2
       subst he2
       right
       norm_num [demoDeadEnemy])
     (by
       norm_num [Projectile.move, demoProjectile, demoLiveEnemy, pyInt,
         Rect.colliderect])
     (by norm_num [demoLiveEnemy])⟩

theorem Inventory.add_items_succeeds (inv : Inventory) (item : Item)
    (hany : inv.slots.any Option.isNone = true) :
    (inv.add_items item).2 = true := by
  unfold Inventory.add_items
  split_ifs with h
  · rfl
  · cases hidx : inv.slots.findIdx? Option.isNone with
    | some i => simp [hidx]
    | none =>
      rw [List.findIdx?_eq_none_iff] at hidx
      obtain ⟨x, hx, hpx⟩ := List.any_eq_true.mp hany
      have := hidx x hx
      rw [hpx] at this
      cases this

theorem Inventory.add_items_full (inv : Inventory) (item : Item)
    (hfull : inv.slots.all Option.isSome = true)
    (hlen : inv.selected_index.toNat < inv.slots.length) :
    inv.add_items item = (inv, false) := by
  have hsel : (Inventory.selectedSlot inv).isSome = true := by
    unfold Inventory.selectedSlot
    rw [List.getD_eq_getElem inv.slots none hlen]
    exact List.all_eq_true.mp hfull _ (List.getElem_mem hlen)
  have hne : ¬(Inventory.selectedSlot inv).isNone = true := by
    rw [Option.isNone_iff_eq_none]
    intro hc
    rw [hc] at hsel
    cases hsel
  unfold Inventory.add_items
  rw [if_neg hne]
  cases hidx : inv.slots.findIdx? Option.isNone with
  | some i =>
    obtain ⟨hi, hpi, _⟩ := List.findIdx?_eq_some_iff_getElem.mp hidx
    have hs := List.all_eq_true.mp hfull _ (List.getElem_mem hi)
    rw [Option.isNone_iff_eq_none] at hpi
    rw [hpi] at hs
    cases hs
  | none => rfl

theorem Player.item_picker_loop_found (sz : ℤ) (prect : Rect) (inv : Inventory)
    (items : List Item) (item : Item)
    (hsucc : ∀ it : Item, (inv.add_items it).2 = true)
    (hfind : items.find? (fun it => prect.colliderect
        { x := it.coordinate_x, y := it.coordinate_y, w := sz, h := sz })
      = some item) :
    Player.item_picker_loop sz prect inv items = ((inv.add_items item).1, some item) := by
  induction items with
  | nil => cases hfind
  | cons it rest ih =>
    by_cases hcol : prect.colliderect
        { x := it.coordinate_x, y := it.coordinate_y, w := sz, h := sz } = true
    · simp only [List.find?_cons, hcol, if_true] at hfind
      have hit : it = item := by injection hfind
      simp only [Player.item_picker_loop]
      rw [if_pos hcol, ← hit]
      have hs := hsucc it
      cases hadd : inv.add_items it with
      | mk inv2 flag =>
        rw [hadd] at hs
        subst hs
        simp [hadd]
    · simp [List.find?_cons, hcol] at hfind
      simp only [Player.item_picker_loop]
      rw [if_neg hcol]
      exact ih hfind

theorem Player.item_picker_loop_full (sz : ℤ) (prect : Rect) (inv : Inventory)
    (items : List Item)
    (hfail : ∀ it : Item, inv.add_items it = (inv, false)) :
    Player.item_picker_loop sz prect inv items = (inv, none) := by
  induction items with
  | nil => rfl
  | cons it rest ih =>
    simp only [Player.item_picker_loop]
    split_ifs with hcol
    · rw [hfail it]
      exact ih
    · exact ih

/-- Claim C6: item_picker removes from the ground list only the first
overlapping item whose insertion succeeds and picks up at most one item per
call; add_items inserts into the currently selected slot when it is empty
and otherwise into the first empty slot; with a full inventory add_items
returns False leaving the inventory unchanged, and the pickup scan then
changes nothing (each overlap just moves the scan on) instead of failing. -/
theorem claim_C6 (sz : ℤ) (p : Player) (items : List Item) (item : Item)
    (hlen : p.inventory.selected_index.toNat < p.inventory.slots.length)
    (hany : p.inventory.slots.any Option.isNone = true)
    (hfind : items.find? (fun it => p.rect.colliderect
        { x := it.coordinate_x, y := it.coordinate_y, w := sz, h := sz })
      = some item) :
    Player.item_picker sz p items
      = ({ p with inventory := (p.inventory.add_items item).1 }, items.erase item) ∧
    (p.inventory.selectedSlot.isNone = true →
      p.inventory.add_items item
        = ({ p.inventory with slots :=
              p.inventory.slots.set p.inventory.selected_index.toNat (some item) },
           true)) ∧
    (∀ i : ℕ, p.inventory.selectedSlot.isNone = false →
      p.inventory.slots.findIdx? Option.isNone = some i →
      p.inventory.add_items item
        = ({ p.inventory with slots := p.inventory.slots.set i (some item) }, true)) ∧
    (∀ inv2 : Inventory, inv2.slots.all Option.isSome = true →
      inv2.selected_index.toNat < inv2.slots.length →
      inv2.add_items item = (inv2, false) ∧
      ∀ items2 : List Item,
        Player.item_picker sz { p with inventory := inv2 } items2
          = ({ p with inventory := inv2 }, items2)) := by
  refine ⟨?_, ?_, ?_, ?_⟩
  · unfold Player.item_picker
    rw [Player.item_picker_loop_found sz p.rect p.inventory items item
      (fun it => Inventory.add_items_succeeds p.inventory it hany) hfind]
  · intro hsel
    unfold Inventory.add_items
    rw [if_pos hsel]
  · intro i hsel hidx
    unfold Inventory.add_items
    rw [if_neg (by simp [hsel]), hidx]
  · intro inv2 hf hl
    refine ⟨Inventory.add_items_full inv2 item hf hl, fun items2 => ?_⟩
    unfold Player.item_picker
    rw [Player.item_picker_loop_full sz
      ({ p with inventory := inv2 } : Player).rect inv2 items2
      (fun it => Inventory.add_items_full inv2 it hf hl)]

/-- Witness for claim C6: the demo player scans a far item (no overlap) and
a near item (overlap); the near item is the first successful pickup and is
erased from the ground list. -/
theorem claim_C6_witness :
    (demoPlayer.inventory.selected_index.toNat < demoPlayer.inventory.slots.length ∧
      demoPlayer.inventory.slots.any Option.isNone = true ∧
      [demoFarItem, demoNearItem].find? (fun it => demoPlayer.rect.colliderect
          { x := it.coordinate_x, y := it.coordinate_y, w := 64, h := 64 })
        = some demoNearItem) ∧
    (Player.item_picker 64 demoPlayer [demoFarItem, demoNearItem]
      = ({ demoPlayer with inventory := (demoPlayer.inventory.add_items demoNearItem).1 },
         [demoFarItem, demoNearItem].erase demoNearItem) ∧
    (demoPlayer.inventory.selectedSlot.isNone = true →
      demoPlayer.inventory.add_items demoNearItem
        = ({ demoPlayer.inventory with slots := demoPlayer.inventory.slots.set demoPlayer.inventory.selected_index.toNat (some demoNearItem) },
           true)) ∧
    (∀ i : ℕ, demoPlayer.inventory.selectedSlot.isNone = false →
      demoPlayer.inventory.slots.findIdx? Option.isNone = some i →
      demoPlayer.inventory.add_items demoNearItem
        = ({ demoPlayer.inventory with slots := demoPlayer.inventory.slots.set i (some demoNearItem) }, true)) ∧
    (∀ inv2 : Inventory, inv2.slots.all Option.isSome = true →
      inv2.selected_index.toNat < inv2.slots.length →
      inv2.add_items demoNearItem = (inv2, false) ∧
      ∀ items2 : List Item,
        Player.item_picker 64 { demoPlayer with inventory := inv2 } items2
          = ({ demoPlayer with inventory := inv2 }, items2))) :=
  ⟨⟨by decide, by decide, by decide⟩,
   claim_C6 64 demoPlayer [demoFarItem, demoNearItem] demoNearItem
     (by decide) (by decide) (by decide)⟩

theorem Player.clampBounds_wh (mapW mapH : ℤ) (p : Player) :
    (Player.clampBounds mapW mapH p).rect.w = p.rect.w ∧
    (Player.clampBounds mapW mapH p).rect.h = p.rect.h := by
  simp only [Player.clampBounds]
  split_ifs <;> exact ⟨rfl, rfl⟩

theorem Player.clampBounds_x_mem (mapW mapH : ℤ) (p : Player)
    (hw : p.rect.w ≤ mapW) :
    0 ≤ (Player.clampBounds mapW mapH p).rect.x ∧
    (Player.clampBounds mapW mapH p).rect.x
      + (Player.clampBounds mapW mapH p).rect.w ≤ mapW := by
  simp only [Player.clampBounds]
  split_ifs <;> (try dsimp only at *) <;> constructor <;> omega

theorem Player.clampBounds_y_mem (mapW mapH : ℤ) (p : Player)
    (hh : p.rect.h ≤ mapH) :
    0 ≤ (Player.clampBounds mapW mapH p).rect.y ∧
    (Player.clampBounds mapW mapH p).rect.y
      + (Player.clampBounds mapW mapH p).rect.h ≤ mapH := by
  simp only [Player.clampBounds]
  split_ifs <;> (try dsimp only at *) <;> constructor <;> omega

theorem Player.clampBounds_of_mem (mapW mapH : ℤ) (p : Player)
    (hx0 : 0 ≤ p.rect.x) (hx1 : p.rect.x + p.rect.w ≤ mapW)
    (hy0 : 0 ≤ p.rect.y) (hy1 : p.rect.y + p.rect.h ≤ mapH) :
    Player.clampBounds mapW mapH p = p := by
  simp only [Player.clampBounds]
  split_ifs <;>
    first
      | rfl
      | (try dsimp only at *) <;> exfalso <;> omega

theorem Player.clampBounds_idem (mapW mapH : ℤ) (p : Player)
    (hw : p.rect.w ≤ mapW) (hh : p.rect.h ≤ mapH) :
    Player.clampBounds mapW mapH (Player.clampBounds mapW mapH p)
      = Player.clampBounds mapW mapH p := by
  have hx := Player.clampBounds_x_mem mapW mapH p hw
  have hy := Player.clampBounds_y_mem mapW mapH p hh
  exact Player.clampBounds_of_mem mapW mapH _ hx.1 hx.2 hy.1 hy.2

theorem Player.clampBounds_exact_x (mapW mapH : ℤ) (p : Player)
    (hfired : p.rect.x < 0 ∨ mapW < p.rect.x + p.rect.w) :
    (Player.clampBounds mapW mapH p).position_x
      = (((Player.clampBounds mapW mapH p).rect.x : ℤ) : ℚ) := by
  simp only [Player.clampBounds]
  split_ifs <;>
    first
      | rfl
      | (exfalso; rcases hfired with h | h <;> omega)

theorem Player.clampBounds_exact_y (mapW mapH : ℤ) (p : Player)
    (hfired : p.rect.y < 0 ∨ mapH < p.rect.y + p.rect.h) :
    (Player.clampBounds mapW mapH p).position_y
      = (((Player.clampBounds mapW mapH p).rect.y : ℤ) : ℚ) := by
  simp only [Player.clampBounds]
  split_ifs <;>
    first
      | rfl
      | (exfalso; (try dsimp only at *); rcases hfired with h | h <;> omega)

/-- Claim C8: the boundary clamp is idempotent and exact: after any
Player.move (in particular one that carries the box beyond a map edge),
clamping again changes nothing; and whenever a clamp fires on an axis, the
float position on that axis equals the clamped integer box coordinate
exactly. -/
theorem claim_C8 (mapW mapH : ℤ) (p : Player) (dx dy dt : ℚ) (sprint : Bool)
    (hw : p.rect.w ≤ mapW) (hh : p.rect.h ≤ mapH) :
    Player.clampBounds mapW mapH (Player.move mapW mapH p dx dy sprint dt)
      = Player.move mapW mapH p dx dy sprint dt ∧
    (∀ q : Player,
      (q.rect.x < 0 ∨ mapW < q.rect.x + q.rect.w →
        (Player.clampBounds mapW mapH q).position_x
          = (((Player.clampBounds mapW mapH q).rect.x : ℤ) : ℚ)) ∧
      (q.rect.y < 0 ∨ mapH < q.rect.y + q.rect.h →
        (Player.clampBounds mapW mapH q).position_y
          = (((Player.clampBounds mapW mapH q).rect.y : ℤ) : ℚ))) := by
  constructor
  · unfold Player.move
    exact Player.clampBounds_idem mapW mapH _ hw hh
  · exact fun q => ⟨Player.clampBounds_exact_x mapW mapH q,
      Player.clampBounds_exact_y mapW mapH q⟩

/-- Witness for claim C8: the demo player sprinting right for a long step,
carrying the box far beyond the right map edge of the 6000 x 4000 map. -/
theorem claim_C8_witness :
    (demoPlayer.rect.w ≤ (6000 : ℤ) ∧ demoPlayer.rect.h ≤ (4000 : ℤ)) ∧
    (Player.clampBounds 6000 4000 (Player.move 6000 4000 demoPlayer 1 0 true 100)
      = Player.move 6000 4000 demoPlayer 1 0 true 100 ∧
    (∀ q : Player,
      (q.rect.x < 0 ∨ (6000 : ℤ) < q.rect.x + q.rect.w →
        (Player.clampBounds 6000 4000 q).position_x
          = (((Player.clampBounds 6000 4000 q).rect.x : ℤ) : ℚ)) ∧
      (q.rect.y < 0 ∨ (4000 : ℤ) < q.rect.y + q.rect.h →
        (Player.clampBounds 6000 4000 q).position_y
          = (((Player.clampBounds 6000 4000 q).rect.y : ℤ) : ℚ)))) :=
  ⟨⟨by decide, by decide⟩,
   claim_C8 6000 4000 demoPlayer 1 0 100 true (by decide) (by decide)⟩

theorem charDigit_digitChar (d : ℕ) (hd : d < 10) :
    charDigit (digitChar d) = some d := by
  unfold charDigit digitChar
  rw [if_pos (by omega)]
  congr 1
  omega

theorem parseDigits_map_digitChar (ds : List ℕ) (h : ∀ d ∈ ds, d < 10) :
    parseDigits (ds.map digitChar) = some ds := by
  induction ds with
  | nil => rfl
  | cons d ds ih =>
    simp only [List.map_cons, parseDigits]
    rw [charDigit_digitChar d (h d (by simp)), ih (fun x hx => h x (by simp [hx]))]

theorem pyStrNat_ne_nil (n : ℕ) : pyStrNat n ≠ [] := by
  unfold pyStrNat
  split_ifs with h
  · simp [digitChar]
  · simp [Nat.digits_ne_nil_iff_ne_zero.mpr h]

theorem pyStrNat_ge_48 (n : ℕ) : ∀ c ∈ pyStrNat n, 48 ≤ c := by
  unfold pyStrNat
  split_ifs with h
  · intro c hc
    simp only [List.mem_singleton] at hc
    subst hc
    simp [digitChar]
  · intro c hc
    rw [List.mem_reverse] at hc
    obtain ⟨d, _, rfl⟩ := List.mem_map.mp hc
    unfold digitChar
    omega

theorem ofDigits_parse_pyStrNat (n : ℕ) :
    ∃ ds, parseDigits (pyStrNat n) = some ds ∧ Nat.ofDigits 10 ds.reverse = n := by
  unfold pyStrNat
  split_ifs with h
  · subst h
    refine ⟨[0], ?_, by simp [Nat.ofDigits]⟩
    decide
  · refine ⟨(Nat.digits 10 n).reverse, ?_, ?_⟩
    · rw [← List.map_reverse]
      exact parseDigits_map_digitChar _
        (fun d hd => Nat.digits_lt_base (by norm_num) (List.mem_reverse.mp hd))
    · rw [List.reverse_reverse]
      exact Nat.ofDigits_digits 10 n

theorem pyParseInt_pyStr (n : ℤ) : pyParseInt (pyStr n) = some n := by
  unfold pyStr
  obtain ⟨ds, hparse, hval⟩ := ofDigits_parse_pyStrNat n.natAbs
  obtain ⟨c0, cs0, hcons⟩ := List.exists_cons_of_ne_nil (pyStrNat_ne_nil n.natAbs)
  have hc0 : 48 ≤ c0 := pyStrNat_ge_48 n.natAbs c0 (by rw [hcons]; simp)
  split_ifs with h
  · rw [hcons]
    simp only [pyParseInt]
    rw [if_pos trivial]
    rw [hcons] at hparse
    rw [hparse]
    dsimp only
    rw [hval]
    congr 1
    omega
  · rw [hcons]
    simp only [pyParseInt]
    rw [if_neg (by omega)]
    rw [hcons] at hparse
    rw [hparse]
    dsimp only
    rw [hval]
    congr 1
    omega

/-- Claim C9: saving any integer score and loading returns exactly that
score; loading with a missing file, or with unparseable contents, returns 0
without any failure escaping. -/
theorem claim_C9 (N : ℤ) (s : List ℕ) (hbad : pyParseInt s = none) :
    Config.load_high_score (Config.save_high_score N) = N ∧
    Config.load_high_score none = 0 ∧
    Config.load_high_score (some s) = 0 := by
  refine ⟨?_, rfl, ?_⟩
  · unfold Config.load_high_score Config.save_high_score
    dsimp only
    rw [pyParseInt_pyStr]
  · unfold Config.load_high_score
    dsimp only
    rw [hbad]

/-- Witness for claim C9: the score -37 round-trips, and the two-letter file
contents "hi" (code points 104, 105) load as 0. -/
theorem claim_C9_witness :
    pyParseInt [104, 105] = none ∧
    (Config.load_high_score (Config.save_high_score (-37)) = -37 ∧
      Config.load_high_score none = 0 ∧
      Config.load_high_score (some [104, 105]) = 0) :=
  ⟨by decide, claim_C9 (-37) [104, 105] (by decide)⟩
